import Mathlib

/-!
Verification of the client logic of the pin-it-share application.

The development shallowly embeds the TypeScript client code:
pure helpers become Lean functions, React event handlers become
state-transition functions that also report the list of gateway
operations they issue, and the remote gateway is an oracle whose
responses are parameters of the handlers.
-/

/-! ## JavaScript string primitives

The code relies on `toLowerCase`, `includes`, `startsWith`, `split`
and `trim` from the JavaScript string API.  They are modelled as
structurally recursive functions over the character list of a string
so that every definition evaluates by kernel reduction. -/

/-- Characterwise lowercasing, modelling `String.prototype.toLowerCase`. -/
def lowerStr (s : String) : String := ⟨s.data.map Char.toLower⟩

/-- Does the first list start with the second?  Models
`String.prototype.startsWith` on character lists. -/
def startsWithL : List Char → List Char → Bool
  | _, [] => true
  | [], _ :: _ => false
  | c :: cs, d :: ds => c = d && startsWithL cs ds

/-- Substring containment (the needle is the second argument), modelling
`String.prototype.includes` on character lists. -/
def containsL : List Char → List Char → Bool
  | [], needle => startsWithL [] needle
  | h :: t, needle => startsWithL (h :: t) needle || containsL t needle

/-- The test `s.includes(q)` of JavaScript. -/
def strIncludes (s q : String) : Bool := containsL s.data q.data

/-- Splitting on a one-character separator, modelling
`String.prototype.split`; on the empty string it yields `[[]]`,
exactly as in JavaScript. -/
def jsSplit (sep : Char) : List Char → List (List Char)
  | [] => [[]]
  | c :: rest =>
    match jsSplit sep rest with
    | [] => [[]]
    | cur :: parts => if c = sep then [] :: cur :: parts else (c :: cur) :: parts

/-- Whitespace trimming at both ends, modelling `String.prototype.trim`. -/
def jsTrim (s : List Char) : List Char :=
  ((s.dropWhile Char.isWhitespace).reverse.dropWhile Char.isWhitespace).reverse

/-! ## Data model

The `Pin` record as the feed fetches it (the `Pin` interface of
`Home.tsx`, `MasonryGrid.tsx` and `PinCard.tsx`), with the joined
author profile. -/

/-- Author profile data joined onto a pin. -/
structure Profile where
  username : String
  display_name : Option String
  avatar_url : Option String
deriving Repr, DecidableEq

/-- A pin record as fetched by the feed. -/
structure Pin where
  id : String
  title : String
  description : Option String
  image_url : String
  tags : Option (List String)
  user_id : String
  created_at : String
  profiles : Option Profile
deriving Repr, DecidableEq

/-! ## Masonry layout engine (`MasonryGrid.tsx`) -/

namespace MasonryGrid

/-- The breakpoint table of `updateColumns`: the column count as a pure
function of `window.innerWidth`. -/
def updateColumns (width : Nat) : Nat :=
  if width < 640 then 2
  else if width < 1024 then 3
  else if width < 1280 then 4
  else 5

/-- The column-count state over the event sequence: `useState(4)` for
the initial value, then `updateColumns` runs once on mount (with the
mount-time width) and once per resize event. -/
def columnsAfterEvents (mountWidth : Nat) (resizeWidths : List Nat) : Nat :=
  resizeWidths.foldl (fun _ w => updateColumns w) (updateColumns mountWidth)

/-- The statement `cols[j].push(p)` of `distributeColumns`. -/
def pushAt {α : Type} : List (List α) → Nat → α → List (List α)
  | [], _, _ => []
  | c :: cs, 0, p => (c ++ [p]) :: cs
  | c :: cs, j + 1, p => c :: pushAt cs j p

/-- The `pins.forEach((pin, index) => ...)` loop of `distributeColumns`. -/
def distributeAux {α : Type} (columns : Nat) : List α → Nat → List (List α) → List (List α)
  | [], _, cols => cols
  | p :: rest, i, cols => distributeAux columns rest (i + 1) (pushAt cols (i % columns) p)

/-- The function `distributeColumns` of `MasonryGrid.tsx`: start from
`columns` empty columns and push pin `i` onto column `i % columns`. -/
def distributeColumns {α : Type} (columns : Nat) (pins : List α) : List (List α) :=
  distributeAux columns pins 0 (List.replicate columns [])

/-- Specification helper: the contents of column `k` when the pins of
`ps` are assigned starting from input index `i`. -/
def colSpec {α : Type} (C k : Nat) : Nat → List α → List α
  | _, [] => []
  | i, p :: rest => (if i % C = k then [p] else []) ++ colSpec C k (i + 1) rest

/-- Fuelled round-robin interleaving of a list of columns: repeatedly
take the heads of all nonempty columns in order, then recurse on the
tails. -/
def roundRobinAux {α : Type} : Nat → List (List α) → List α
  | 0, _ => []
  | fuel + 1, cols =>
    if cols.all List.isEmpty then []
    else cols.filterMap List.head? ++ roundRobinAux fuel (cols.map List.tail)

/-- Round-robin interleaving of a list of columns; the total number of
elements is enough fuel. -/
def roundRobin {α : Type} (cols : List (List α)) : List α :=
  roundRobinAux ((cols.map List.length).sum) cols

end MasonryGrid

/-! ## Feed screen (`Home.tsx`) -/

namespace Home

/-- The per-pin predicate of the filter effect of `Home.tsx`: the query
matches the title, the description, some tag, the author username or
the author display name, all lowercased, with optional chains yielding
a falsy result when a field is absent. -/
def pinMatches (searchQuery : String) (pin : Pin) : Bool :=
  strIncludes (lowerStr pin.title) (lowerStr searchQuery) ||
  (match pin.description with
   | some d => strIncludes (lowerStr d) (lowerStr searchQuery)
   | none => false) ||
  (match pin.tags with
   | some ts => ts.any (fun tag => strIncludes (lowerStr tag) (lowerStr searchQuery))
   | none => false) ||
  (match pin.profiles with
   | some prof => strIncludes (lowerStr prof.username) (lowerStr searchQuery)
   | none => false) ||
  (match pin.profiles with
   | some prof =>
     match prof.display_name with
     | some dn => strIncludes (lowerStr dn) (lowerStr searchQuery)
     | none => false
   | none => false)

/-- The filter effect of `Home.tsx`: an empty (falsy) query keeps the
whole pin list, otherwise the list is filtered by `pinMatches`. -/
def filterEffect (searchQuery : String) (pins : List Pin) : List Pin :=
  if searchQuery = "" then pins else pins.filter (pinMatches searchQuery)

/-- Specification-side reading of a case-insensitive substring test:
the lowercased query occurs inside the lowercased text. -/
def ciMatches (q s : String) : Prop := strIncludes (lowerStr s) (lowerStr q) = true

/-- Specification-side retention condition of claim C1: the query is
empty, or it is a case-insensitive substring of the title, the
description, some tag, the author username or the author display name. -/
def claimRetains (q : String) (p : Pin) : Prop :=
  q = "" ∨ ciMatches q p.title ∨
  (∃ d, p.description = some d ∧ ciMatches q d) ∨
  (∃ ts, p.tags = some ts ∧ ∃ t ∈ ts, ciMatches q t) ∨
  (∃ prof, p.profiles = some prof ∧ ciMatches q prof.username) ∨
  (∃ prof dn, p.profiles = some prof ∧ prof.display_name = some dn ∧ ciMatches q dn)

/-- The in-memory state of the feed screen. -/
structure HomeState where
  pins : List Pin
  likedPins : List String
  savedPins : List String
  searchQuery : String
deriving Repr, DecidableEq

/-- Gateway fetches the feed screen can issue on mount. -/
inductive HomeFetch where
  | fetchPins
  | fetchLikes
  | fetchSaves
deriving Repr, DecidableEq

/-- The `useState` initial values of `Home`. -/
def initialState : HomeState :=
  { pins := [], likedPins := [], savedPins := [], searchQuery := "" }

/-- The mount effect of `Home`: always fetch the pins; fetch the like
and save id sets only when a session user exists. -/
def mountOps (sessionUser : Option String) : List HomeFetch :=
  [HomeFetch.fetchPins] ++
    (match sessionUser with
     | some _ => [HomeFetch.fetchLikes, HomeFetch.fetchSaves]
     | none => [])

/-- JavaScript `Set.prototype.add` on an insertion-ordered set. -/
def setAdd (s : List String) (x : String) : List String :=
  if x ∈ s then s else s ++ [x]

/-- JavaScript `Set.prototype.delete` on an insertion-ordered set. -/
def setDelete (s : List String) (x : String) : List String :=
  s.filter (fun y => y ≠ x)

/-- The `handleLike` callback of `Home.tsx`: rebuild the liked-id set,
adding the id when the new state is liked and deleting it otherwise;
no gateway request is issued. -/
def handleLike (pinId : String) (liked : Bool) (st : HomeState) :
    HomeState × List HomeFetch :=
  ({ st with likedPins :=
      if liked then setAdd st.likedPins pinId else setDelete st.likedPins pinId }, [])

/-- The `handleSave` callback of `Home.tsx`, symmetric to `handleLike`
on the saved-id set. -/
def handleSave (pinId : String) (saved : Bool) (st : HomeState) :
    HomeState × List HomeFetch :=
  ({ st with savedPins :=
      if saved then setAdd st.savedPins pinId else setDelete st.savedPins pinId }, [])

/-- The `handleDelete` callback of `Home.tsx`: drop the pin with the
given id from the in-memory pin list. -/
def handleDelete (pinId : String) (st : HomeState) :
    HomeState × List HomeFetch :=
  ({ st with pins := st.pins.filter (fun pin => pin.id ≠ pinId) }, [])

end Home

/-! ## Pin card (`PinCard.tsx`)

The like and save handlers issue one gateway row operation and then
flip the local flag.  The gateway call of the source resolves with a
result object whose error field is never read, so the handlers take the
gateway outcome as a parameter that the transition does not inspect:
this is exactly the "no rollback on failure" behaviour of the code. -/

namespace PinCard

/-- Row operations the pin card can request from the gateway. -/
inductive GatewayOp where
  | deleteLike (userId pinId : String)
  | insertLike (userId pinId : String)
  | deleteSave (userId pinId : String)
  | insertSave (userId pinId : String)
deriving Repr, DecidableEq

/-- The local optimistic-toggle state of one pin card. -/
structure CardState where
  isLiked : Bool
  isSaved : Bool
deriving Repr, DecidableEq

/-- The `handleLike` handler of `PinCard.tsx`.  Output: the new card
state, the gateway operations issued, and the `onLike` callback
invocation (pin id and new flag) when one happens. -/
def handleLike (sessionUser : Option String) (pinId : String)
    (_gatewayResult : Except String Unit) (st : CardState) :
    CardState × List GatewayOp × Option (String × Bool) :=
  match sessionUser with
  | none => (st, [], none)
  | some uid =>
    ({ st with isLiked := !st.isLiked },
     [if st.isLiked then GatewayOp.deleteLike uid pinId
      else GatewayOp.insertLike uid pinId],
     some (pinId, !st.isLiked))

/-- The `handleSave` handler of `PinCard.tsx`, symmetric to
`handleLike` against the saves relation. -/
def handleSave (sessionUser : Option String) (pinId : String)
    (_gatewayResult : Except String Unit) (st : CardState) :
    CardState × List GatewayOp × Option (String × Bool) :=
  match sessionUser with
  | none => (st, [], none)
  | some uid =>
    ({ st with isSaved := !st.isSaved },
     [if st.isSaved then GatewayOp.deleteSave uid pinId
      else GatewayOp.insertSave uid pinId],
     some (pinId, !st.isSaved))

end PinCard

/-! ## Pin creation screen (`CreatePin.tsx`) -/

namespace CreatePin

/-- A selected file: name, byte size and declared MIME type. -/
structure FileRec where
  name : String
  size : Nat
  fileType : String
deriving Repr, DecidableEq

/-- The three text fields of the creation form. -/
structure FormData where
  title : String
  description : String
  tags : String
deriving Repr, DecidableEq

/-- The local state of the creation screen. -/
structure CreateState where
  imageFile : Option FileRec
  imagePreview : String
  formData : FormData
  notifications : List String
deriving Repr, DecidableEq

/-- A new-pin record as handed to the gateway insert. -/
structure PinInsert where
  user_id : String
  title : String
  description : Option String
  image_url : String
  tags : List String
deriving Repr, DecidableEq

/-- Storage and table operations the creation screen can issue. -/
inductive StorageOp where
  | upload (path : String) (file : FileRec)
  | getPublicUrl (path : String)
  | insertPin (record : PinInsert)
deriving Repr, DecidableEq

/-- The data URL the `FileReader` preview produces for a file,
abstracted by its header; it is never the empty string. -/
def dataUrlOf (f : FileRec) : String := "data:" ++ f.fileType

/-- The `handleImageUpload` handler of `CreatePin.tsx`: reject files
over 10 MiB, then files whose declared type does not start with
`image/`; a rejection only adds a notification and returns, an
accepted file becomes the selection and fills the preview.  The
handler contains no gateway call, hence the always-empty operation
list. -/
def handleImageUpload (selected : Option FileRec) (st : CreateState) :
    CreateState × List StorageOp :=
  match selected with
  | none => (st, [])
  | some file =>
    if file.size > 10 * 1024 * 1024 then
      ({ st with notifications := st.notifications ++ ["File too large"] }, [])
    else if !(startsWithL file.fileType.data "image/".data) then
      ({ st with notifications := st.notifications ++ ["Invalid file type"] }, [])
    else
      ({ st with imageFile := some file, imagePreview := dataUrlOf file }, [])

/-- The tag parsing of `handleSubmit`: split the tags field on commas,
trim each piece, keep the pieces of positive length. -/
def parseTags (s : String) : List String :=
  (((jsSplit ',' s.data).map jsTrim).filter (fun t => t.length > 0)).map
    (fun cs => ⟨cs⟩)

/-- Specification-side tag parsing of claim C3, in the words of the
specification: split on commas, trim whitespace from each piece,
discard empty results. -/
def specTags (s : String) : List String :=
  (((jsSplit ',' s.data).map jsTrim).filter (fun t => t ≠ [])).map
    (fun cs => ⟨cs⟩)

/-- The expression `imageFile.name.split(.).pop()` computing the file
extension. -/
def fileExtOf (fname : String) : String :=
  ⟨(jsSplit '.' fname.data).getLastD []⟩

/-- Gateway oracle for one submission: the outcome of the upload, the
outcome of the insert, the public-URL resolver and the current
timestamp. -/
structure SubmitEnv where
  uploadResult : Except String Unit
  insertResult : Except String Unit
  publicUrlFor : String → String
  now : Nat

/-- The storage path `user.id/Date.now().ext` used by the upload. -/
def uploadPath (env : SubmitEnv) (uid : String) (file : FileRec) : String :=
  uid ++ "/" ++ toString env.now ++ "." ++ fileExtOf file.name

/-- The record inserted by step four of the submission. -/
def insertedRecord (env : SubmitEnv) (uid : String) (file : FileRec)
    (form : FormData) : PinInsert :=
  { user_id := uid
    title := form.title
    description := if form.description = "" then none else some form.description
    image_url := env.publicUrlFor (uploadPath env uid file)
    tags := parseTags form.tags }

/-- The `handleSubmit` handler of `CreatePin.tsx`.  Output: the new
screen state, the gateway operations issued in order, and whether
navigation to the feed happened.  A thrown gateway error jumps to the
catch block, which surfaces the error message and leaves the form
untouched. -/
def handleSubmit (env : SubmitEnv) (sessionUser : Option String)
    (st : CreateState) : CreateState × List StorageOp × Bool :=
  match sessionUser, st.imageFile with
  | some uid, some file =>
    let fileName := uploadPath env uid file
    (match env.uploadResult with
     | Except.error msg =>
       ({ st with notifications := st.notifications ++ [msg] },
        [StorageOp.upload fileName file], false)
     | Except.ok _ =>
       let record := insertedRecord env uid file st.formData
       (match env.insertResult with
        | Except.error msg =>
          ({ st with notifications := st.notifications ++ [msg] },
           [StorageOp.upload fileName file, StorageOp.getPublicUrl fileName,
            StorageOp.insertPin record], false)
        | Except.ok _ =>
          ({ st with notifications := st.notifications ++ ["Pin created!"] },
           [StorageOp.upload fileName file, StorageOp.getPublicUrl fileName,
            StorageOp.insertPin record], true)))
  | _, _ => (st, [], false)

end CreatePin

/-! ## Sample data for concrete evaluations -/

/-- A sample author profile. -/
def sampleProfile : Profile :=
  { username := "alice", display_name := some "Alice Art", avatar_url := none }

/-- A sample pin by the sample author. -/
def samplePin : Pin :=
  { id := "p1", title := "Sunset Recipe", description := some "Golden hour"
    image_url := "https://img/1.png", tags := some ["food", "sky"]
    user_id := "u1", created_at := "2024-01-01", profiles := some sampleProfile }

/-- A second sample pin, by an unknown author. -/
def samplePin2 : Pin :=
  { id := "p2", title := "Blue Door", description := none
    image_url := "https://img/2.png", tags := none
    user_id := "u2", created_at := "2024-01-02", profiles := none }

/-- A third sample pin. -/
def samplePin3 : Pin :=
  { id := "p3", title := "Red Chair", description := none
    image_url := "https://img/3.png", tags := none
    user_id := "u1", created_at := "2024-01-03", profiles := some sampleProfile }

/-- A small valid image file. -/
def smallFile : CreatePin.FileRec :=
  { name := "ok.png", size := 2048, fileType := "image/png" }

/-- An 11 MiB file, over the 10 MiB limit. -/
def bigFile : CreatePin.FileRec :=
  { name := "big.png", size := 11 * 1024 * 1024, fileType := "image/png" }

/-- A creation-screen state that already holds a valid selection. -/
def stateWithSelection : CreatePin.CreateState :=
  { imageFile := some smallFile
    imagePreview := CreatePin.dataUrlOf smallFile
    formData := { title := "t", description := "", tags := "food, , recipe" }
    notifications := [] }

/-- A sample gateway oracle where every operation succeeds. -/
def sampleEnv : CreatePin.SubmitEnv :=
  { uploadResult := Except.ok (), insertResult := Except.ok ()
    publicUrlFor := fun p => "https://cdn/" ++ p, now := 1700000000 }

/-- A sample feed-screen state. -/
def sampleHomeState : Home.HomeState :=
  { pins := [samplePin, samplePin2], likedPins := [], savedPins := ["p2"]
    searchQuery := "" }

/-!
## Theorems

Helper lemmas come first, then one theorem per claim (with its witness
or counterexample where one is called for).
-/

/-- The column count after the mount event and a sequence of resize
events is the breakpoint function applied to the last width seen. -/
theorem columnsAfterEvents_getLastD (rs : List Nat) (w0 : Nat) :
    MasonryGrid.columnsAfterEvents w0 rs =
      MasonryGrid.updateColumns (rs.getLastD w0) := by
  induction rs generalizing w0 with
  | nil => rfl
  | cons r rs ih =>
    show (r :: rs).foldl _ _ = _
    rw [List.foldl_cons, List.getLastD_cons]
    exact ih r

/-- C7: the masonry column count is a pure function of viewport width
with breakpoints 640, 1024 and 1280 giving 2, 3, 4 and 5 columns, and
the column-count state after the mount computation and any sequence of
resize recomputations is that function of the last width observed. -/
theorem column_count_breakpoints (w w0 : Nat) (rs : List Nat) :
    (w < 640 → MasonryGrid.updateColumns w = 2) ∧
    (640 ≤ w → w < 1024 → MasonryGrid.updateColumns w = 3) ∧
    (1024 ≤ w → w < 1280 → MasonryGrid.updateColumns w = 4) ∧
    (1280 ≤ w → MasonryGrid.updateColumns w = 5) ∧
    MasonryGrid.columnsAfterEvents w0 rs =
      MasonryGrid.updateColumns (rs.getLastD w0) := by
  refine ⟨?_, ?_, ?_, ?_, columnsAfterEvents_getLastD rs w0⟩ <;>
    intros <;> (unfold MasonryGrid.updateColumns; split_ifs <;> omega)

/-- Witness for C7 at concrete widths. -/
theorem column_count_breakpoints_witness :
    MasonryGrid.updateColumns 700 = 3 ∧
    MasonryGrid.columnsAfterEvents 500 [700, 1300] =
      MasonryGrid.updateColumns 1300 :=
  ⟨(column_count_breakpoints 700 0 []).2.1 (by decide) (by decide),
   (column_count_breakpoints 0 500 [700, 1300]).2.2.2.2⟩

/-- C6: a like click by an authenticated user issues exactly one
gateway operation, a row deletion when the local liked flag is true
and a row insertion otherwise; the flag becomes the negation of its
prior value; the outcome is the same whatever the gateway result, so a
failure is not rolled back; the save click is symmetric against the
saves relation. -/
theorem like_save_toggle_single_op (uid pinId : String)
    (res res2 : Except String Unit) (st : PinCard.CardState) :
    (PinCard.handleLike (some uid) pinId res st).2.1.length = 1 ∧
    (st.isLiked = true →
      (PinCard.handleLike (some uid) pinId res st).2.1 =
        [PinCard.GatewayOp.deleteLike uid pinId]) ∧
    (st.isLiked = false →
      (PinCard.handleLike (some uid) pinId res st).2.1 =
        [PinCard.GatewayOp.insertLike uid pinId]) ∧
    (PinCard.handleLike (some uid) pinId res st).1.isLiked = !st.isLiked ∧
    (PinCard.handleLike (some uid) pinId res st).1.isSaved = st.isSaved ∧
    PinCard.handleLike (some uid) pinId res st =
      PinCard.handleLike (some uid) pinId res2 st ∧
    (PinCard.handleSave (some uid) pinId res st).2.1.length = 1 ∧
    (st.isSaved = true →
      (PinCard.handleSave (some uid) pinId res st).2.1 =
        [PinCard.GatewayOp.deleteSave uid pinId]) ∧
    (st.isSaved = false →
      (PinCard.handleSave (some uid) pinId res st).2.1 =
        [PinCard.GatewayOp.insertSave uid pinId]) ∧
    (PinCard.handleSave (some uid) pinId res st).1.isSaved = !st.isSaved ∧
    (PinCard.handleSave (some uid) pinId res st).1.isLiked = st.isLiked ∧
    PinCard.handleSave (some uid) pinId res st =
      PinCard.handleSave (some uid) pinId res2 st := by
  refine ⟨rfl, ?_, ?_, rfl, rfl, rfl, rfl, ?_, ?_, rfl, rfl, rfl⟩ <;>
    (intro h; simp [PinCard.handleLike, PinCard.handleSave, h])

/-- Witness for C6 on a card whose liked flag is set. -/
theorem like_save_toggle_single_op_witness :
    (PinCard.handleLike (some "u1") "p1" (Except.error "boom")
        ⟨true, false⟩).2.1 = [PinCard.GatewayOp.deleteLike "u1" "p1"] ∧
    (PinCard.handleLike (some "u1") "p1" (Except.error "boom")
        ⟨true, false⟩).1.isLiked = false :=
  ⟨(like_save_toggle_single_op "u1" "p1" (Except.error "boom")
      (Except.ok ()) ⟨true, false⟩).2.1 rfl,
   ((like_save_toggle_single_op "u1" "p1" (Except.error "boom")
      (Except.ok ()) ⟨true, false⟩).2.2.2.1).trans rfl⟩

/-- C8: with no authenticated session, a like or save click issues no
gateway operation, changes no local state and invokes no callback; the
mount effect fetches the pins but never the like or save id sets, and
those sets start out empty. -/
theorem anonymous_no_ops (pinId : String) (res : Except String Unit)
    (st : PinCard.CardState) :
    PinCard.handleLike none pinId res st = (st, [], none) ∧
    PinCard.handleSave none pinId res st = (st, [], none) ∧
    Home.mountOps none = [Home.HomeFetch.fetchPins] ∧
    Home.HomeFetch.fetchLikes ∉ Home.mountOps none ∧
    Home.HomeFetch.fetchSaves ∉ Home.mountOps none ∧
    Home.HomeFetch.fetchPins ∈ Home.mountOps none ∧
    Home.initialState.likedPins = [] ∧
    Home.initialState.savedPins = [] := by
  refine ⟨rfl, rfl, rfl, ?_, ?_, ?_, rfl, rfl⟩ <;> decide

/-- Witness for C8 at concrete arguments. -/
theorem anonymous_no_ops_witness :
    PinCard.handleLike none "p1" (Except.ok ()) ⟨false, false⟩ =
      (⟨false, false⟩, [], none) :=
  (anonymous_no_ops "p1" (Except.ok ()) ⟨false, false⟩).1

/-- Membership in the modelled `Set.prototype.add`. -/
theorem mem_setAdd (s : List String) (pid x : String) :
    x ∈ Home.setAdd s pid ↔ (x ∈ s ∨ x = pid) := by
  unfold Home.setAdd
  split_ifs with h
  · constructor
    · exact Or.inl
    · rintro (hx | rfl)
      · exact hx
      · exact h
  · simp

/-- Membership in the modelled `Set.prototype.delete`. -/
theorem mem_setDelete (s : List String) (pid x : String) :
    x ∈ Home.setDelete s pid ↔ (x ∈ s ∧ x ≠ pid) := by
  unfold Home.setDelete
  simp

/-- C9: the feed-screen like and save callbacks mutate only the
corresponding id set (adding the id when the new flag is true,
removing it otherwise), leave the pin list, the other id set and the
search query unchanged and issue no fetch; the delete callback keeps
exactly the pins with a different id, in their original relative
order, and leaves everything else unchanged. -/
theorem feed_callbacks_frame (pinId : String) (b : Bool)
    (st : Home.HomeState) :
    (Home.handleLike pinId b st).1.pins = st.pins ∧
    (Home.handleLike pinId b st).1.savedPins = st.savedPins ∧
    (Home.handleLike pinId b st).1.searchQuery = st.searchQuery ∧
    (Home.handleLike pinId b st).2 = [] ∧
    (∀ x, x ∈ (Home.handleLike pinId b st).1.likedPins ↔
      (if b then x ∈ st.likedPins ∨ x = pinId
       else x ∈ st.likedPins ∧ x ≠ pinId)) ∧
    (Home.handleSave pinId b st).1.pins = st.pins ∧
    (Home.handleSave pinId b st).1.likedPins = st.likedPins ∧
    (Home.handleSave pinId b st).1.searchQuery = st.searchQuery ∧
    (Home.handleSave pinId b st).2 = [] ∧
    (∀ x, x ∈ (Home.handleSave pinId b st).1.savedPins ↔
      (if b then x ∈ st.savedPins ∨ x = pinId
       else x ∈ st.savedPins ∧ x ≠ pinId)) ∧
    (Home.handleDelete pinId st).1.pins =
      st.pins.filter (fun pin => pin.id ≠ pinId) ∧
    (Home.handleDelete pinId st).1.pins.Sublist st.pins ∧
    (∀ p ∈ st.pins, p.id ≠ pinId → p ∈ (Home.handleDelete pinId st).1.pins) ∧
    (∀ p ∈ (Home.handleDelete pinId st).1.pins, p ∈ st.pins ∧ p.id ≠ pinId) ∧
    (Home.handleDelete pinId st).1.likedPins = st.likedPins ∧
    (Home.handleDelete pinId st).1.savedPins = st.savedPins ∧
    (Home.handleDelete pinId st).1.searchQuery = st.searchQuery ∧
    (Home.handleDelete pinId st).2 = [] := by
  refine ⟨rfl, rfl, rfl, rfl, ?_, rfl, rfl, rfl, rfl, ?_, rfl,
    List.filter_sublist _, ?_, ?_, rfl, rfl, rfl, rfl⟩
  · intro x
    cases b <;> simp [Home.handleLike, mem_setAdd, mem_setDelete]
  · intro x
    cases b <;> simp [Home.handleSave, mem_setAdd, mem_setDelete]
  · intro p hp hne
    simp [Home.handleDelete, List.mem_filter, hp, hne]
  · intro p hp
    simpa [Home.handleDelete, List.mem_filter] using hp

/-- Witness for C9: liking adds the id, deleting removes the pin. -/
theorem feed_callbacks_frame_witness :
    "p1" ∈ (Home.handleLike "p1" true sampleHomeState).1.likedPins :=
  ((feed_callbacks_frame "p1" true sampleHomeState).2.2.2.2.1 "p1").mpr
    (by decide)


/-- C4 counterexample: selecting an 11 MiB file while a valid
selection exists does show the size error, but it does not clear the
current selection; the prior file remains selected, so the claim that
"the current image selection is cleared" fails. -/
theorem image_rejection_keeps_selection :
    bigFile.size > 10 * 1024 * 1024 ∧
    (CreatePin.handleImageUpload (some bigFile) stateWithSelection).1.imageFile
      = some smallFile ∧
    (CreatePin.handleImageUpload (some bigFile) stateWithSelection).1.imageFile
      ≠ none := by
  refine ⟨by decide, rfl, by decide⟩

/-- C4 (amended): an oversized file or a non-image MIME type is
rejected before any gateway operation with a user-visible
notification, the rest of the state, in particular the current
selection and preview, being left unchanged; a valid file becomes the
pending selection and the preview is populated. -/
theorem image_validation_amended (file : CreatePin.FileRec)
    (st : CreatePin.CreateState) :
    (file.size > 10 * 1024 * 1024 →
      CreatePin.handleImageUpload (some file) st =
        ({ st with notifications := st.notifications ++ ["File too large"] },
         [])) ∧
    (file.size ≤ 10 * 1024 * 1024 →
      startsWithL file.fileType.data "image/".data = false →
      CreatePin.handleImageUpload (some file) st =
        ({ st with notifications := st.notifications ++ ["Invalid file type"] },
         [])) ∧
    (file.size ≤ 10 * 1024 * 1024 →
      startsWithL file.fileType.data "image/".data = true →
      CreatePin.handleImageUpload (some file) st =
        ({ st with imageFile := some file
                   imagePreview := CreatePin.dataUrlOf file }, []) ∧
      (CreatePin.dataUrlOf file).data ≠ []) := by
  refine ⟨?_, ?_, ?_⟩
  · intro hbig
    simp [CreatePin.handleImageUpload, hbig]
  · intro hsz hmime
    simp [CreatePin.handleImageUpload, Nat.not_lt.mpr hsz, hmime]
  · intro hsz hmime
    refine ⟨by simp [CreatePin.handleImageUpload, Nat.not_lt.mpr hsz, hmime], ?_⟩
    show ("data:" ++ file.fileType).data ≠ []
    cases file.fileType with
    | mk l => intro h; simpa using congrArg List.length h

/-- Witness for C4 (amended) on the oversized file. -/
theorem image_validation_amended_witness :
    CreatePin.handleImageUpload (some bigFile) stateWithSelection =
      ({ stateWithSelection with
          notifications := stateWithSelection.notifications ++
            ["File too large"] }, []) :=
  (image_validation_amended bigFile stateWithSelection).1 (by decide)

/-- The tag parsing of the code agrees with the parsing in the words of
the specification: positive length is nonemptiness. -/
theorem parseTags_eq_specTags (s : String) :
    CreatePin.parseTags s = CreatePin.specTags s := by
  unfold CreatePin.parseTags CreatePin.specTags
  congr 1
  apply List.filter_congr
  intro t _
  cases t <;> simp

/-- C3: the tag list stored on the created pin is the comma-split,
trimmed, empty-filtered tags input, and the input
"food, , recipe" yields exactly ["food", "recipe"]. -/
theorem tags_parsing_spec (s : String) (env : CreatePin.SubmitEnv)
    (uid : String) (st : CreatePin.CreateState) (file : CreatePin.FileRec)
    (hf : st.imageFile = some file)
    (hu : env.uploadResult = Except.ok ())
    (hi : env.insertResult = Except.ok ()) :
    CreatePin.parseTags s = CreatePin.specTags s ∧
    CreatePin.parseTags "food, , recipe" = ["food", "recipe"] ∧
    (CreatePin.handleSubmit env (some uid) st).2.1 =
      [CreatePin.StorageOp.upload (CreatePin.uploadPath env uid file) file,
       CreatePin.StorageOp.getPublicUrl (CreatePin.uploadPath env uid file),
       CreatePin.StorageOp.insertPin
         (CreatePin.insertedRecord env uid file st.formData)] ∧
    (CreatePin.insertedRecord env uid file st.formData).tags =
      CreatePin.specTags st.formData.tags := by
  refine ⟨parseTags_eq_specTags s, by decide, ?_, ?_⟩
  · simp [CreatePin.handleSubmit, hf, hu, hi]
  · simp [CreatePin.insertedRecord, parseTags_eq_specTags]

/-- Witness for C3 on the sample submission. -/
theorem tags_parsing_spec_witness :
    CreatePin.parseTags "food, , recipe" = ["food", "recipe"] :=
  (tags_parsing_spec "x" sampleEnv "u1" stateWithSelection smallFile
    rfl rfl rfl).2.1

/-- C5: with a session and a selected image, submission uploads to the
timestamped per-user path, resolves the public URL, parses the tags
and inserts the record, in that order; a failed upload stops before
the URL and insert steps; any failure surfaces the underlying error
message, leaves the form fields and selection unchanged and does not
navigate; navigation happens exactly when both gateway steps
succeed. -/
theorem submit_sequence_order (env : CreatePin.SubmitEnv) (uid : String)
    (st : CreatePin.CreateState) (file : CreatePin.FileRec)
    (hf : st.imageFile = some file) :
    (∀ msg, env.uploadResult = Except.error msg →
      CreatePin.handleSubmit env (some uid) st =
        ({ st with notifications := st.notifications ++ [msg] },
         [CreatePin.StorageOp.upload (CreatePin.uploadPath env uid file) file],
         false)) ∧
    (∀ msg, env.uploadResult = Except.ok () →
      env.insertResult = Except.error msg →
      CreatePin.handleSubmit env (some uid) st =
        ({ st with notifications := st.notifications ++ [msg] },
         [CreatePin.StorageOp.upload (CreatePin.uploadPath env uid file) file,
          CreatePin.StorageOp.getPublicUrl (CreatePin.uploadPath env uid file),
          CreatePin.StorageOp.insertPin
            (CreatePin.insertedRecord env uid file st.formData)],
         false)) ∧
    (env.uploadResult = Except.ok () → env.insertResult = Except.ok () →
      CreatePin.handleSubmit env (some uid) st =
        ({ st with notifications := st.notifications ++ ["Pin created!"] },
         [CreatePin.StorageOp.upload (CreatePin.uploadPath env uid file) file,
          CreatePin.StorageOp.getPublicUrl (CreatePin.uploadPath env uid file),
          CreatePin.StorageOp.insertPin
            (CreatePin.insertedRecord env uid file st.formData)],
         true)) ∧
    ((CreatePin.handleSubmit env (some uid) st).2.2 = true ↔
      env.uploadResult = Except.ok () ∧ env.insertResult = Except.ok ()) := by
  refine ⟨?_, ?_, ?_, ?_⟩
  · intro msg hu
    simp [CreatePin.handleSubmit, hf, hu]
  · intro msg hu hi
    simp [CreatePin.handleSubmit, hf, hu, hi]
  · intro hu hi
    simp [CreatePin.handleSubmit, hf, hu, hi]
  · rcases hu : env.uploadResult with msg | u
    · simp [CreatePin.handleSubmit, hf, hu]
    · cases u
      rcases hi : env.insertResult with msg | u
      · simp [CreatePin.handleSubmit, hf, hu, hi]
      · cases u
        simp [CreatePin.handleSubmit, hf, hu, hi]

/-- Witness for C5 on the all-success sample submission. -/
theorem submit_sequence_order_witness :
    CreatePin.handleSubmit sampleEnv (some "u1") stateWithSelection =
      ({ stateWithSelection with
          notifications := stateWithSelection.notifications ++
            ["Pin created!"] },
       [CreatePin.StorageOp.upload
          (CreatePin.uploadPath sampleEnv "u1" smallFile) smallFile,
        CreatePin.StorageOp.getPublicUrl
          (CreatePin.uploadPath sampleEnv "u1" smallFile),
        CreatePin.StorageOp.insertPin
          (CreatePin.insertedRecord sampleEnv "u1" smallFile
            stateWithSelection.formData)],
       true) :=
  (submit_sequence_order sampleEnv "u1" stateWithSelection smallFile
    rfl).2.2.1 rfl rfl

/-- The per-pin filter predicate holds exactly when one of the five
searched fields contains the lowercased query. -/
theorem pinMatches_eq_true_iff (q : String) (p : Pin) :
    Home.pinMatches q p = true ↔
      (Home.ciMatches q p.title ∨
       (∃ d, p.description = some d ∧ Home.ciMatches q d) ∨
       (∃ ts, p.tags = some ts ∧ ∃ t ∈ ts, Home.ciMatches q t) ∨
       (∃ prof, p.profiles = some prof ∧ Home.ciMatches q prof.username) ∨
       (∃ prof dn, p.profiles = some prof ∧ prof.display_name = some dn ∧
          Home.ciMatches q dn)) := by
  obtain ⟨pid, title, descr, url, tags, uid, cat, profs⟩ := p
  cases descr <;> cases tags <;>
    rcases profs with _ | ⟨un, dn, av⟩ <;> (try cases dn) <;>
    simp [Home.pinMatches, Home.ciMatches, List.any_eq_true, or_assoc]

/-- C1: the feed filter retains a pin of the list exactly when the
query is empty or is a case-insensitive substring of its title, its
description, one of its tags, its author username or its author
display name. -/
theorem filter_retains_iff (q : String) (pins : List Pin) (p : Pin)
    (hp : p ∈ pins) :
    p ∈ Home.filterEffect q pins ↔ Home.claimRetains q p := by
  unfold Home.filterEffect Home.claimRetains
  by_cases hq : q = ""
  · simp [hq, hp]
  · rw [if_neg hq, List.mem_filter, pinMatches_eq_true_iff]
    simp [hp, hq]

/-- Witness for C1: an uppercase query found in a tag retains the
sample pin. -/
theorem filter_retains_iff_witness :
    samplePin ∈ Home.filterEffect "OOD" [samplePin, samplePin2] :=
  (filter_retains_iff "OOD" [samplePin, samplePin2] samplePin
      (by decide)).mpr
    (Or.inr (Or.inr (Or.inr (Or.inl
      ⟨["food", "sky"], rfl, "food", by decide,
        by unfold Home.ciMatches; decide⟩))))

namespace MasonryGrid

/-- Pointwise effect of `pushAt`: only the pushed-to column changes,
gaining the element at its end. -/
theorem pushAt_getElem? {α : Type} (cols : List (List α)) (j : Nat) (p : α) :
    ∀ k, (pushAt cols j p)[k]? =
      if k = j then (cols[k]?).map (fun c => c ++ [p]) else cols[k]? := by
  induction cols generalizing j with
  | nil => intro k; simp [pushAt]
  | cons c cs ih =>
    intro k
    cases j with
    | zero =>
      cases k with
      | zero => simp [pushAt]
      | succ k => simp [pushAt]
    | succ j =>
      cases k with
      | zero => simp [pushAt]
      | succ k => simpa [pushAt] using ih j k

/-- Pointwise characterization of the distribution loop: each column
ends up as its initial contents followed by the pins whose running
index is congruent to the column index. -/
theorem distributeAux_getElem? {α : Type} (C : Nat) (ps : List α) :
    ∀ (i : Nat) (cols : List (List α)) (k : Nat),
      (distributeAux C ps i cols)[k]? =
        (cols[k]?).map (fun c => c ++ colSpec C k i ps) := by
  induction ps with
  | nil =>
    intro i cols k
    cases h : cols[k]? <;> simp [distributeAux, colSpec, h]
  | cons p rest ih =>
    intro i cols k
    rw [distributeAux, ih, pushAt_getElem?]
    by_cases hk : k = i % C
    · rw [if_pos hk, colSpec, if_pos hk.symm]
      cases h : cols[k]? <;> simp [h]
    · rw [if_neg hk, colSpec, if_neg (fun h2 => hk h2.symm)]
      cases h : cols[k]? <;> simp [h]

/-- The distribution is the table of `colSpec` columns. -/
theorem distributeColumns_eq {α : Type} (C : Nat) (ps : List α) :
    distributeColumns C ps = (List.range C).map (fun k => colSpec C k 0 ps) := by
  apply List.ext_getElem?
  intro k
  rw [distributeColumns, distributeAux_getElem?, List.getElem?_replicate,
    List.getElem?_map]
  by_cases hk : k < C
  · rw [List.getElem?_range hk, if_pos hk]
    rfl
  · rw [List.getElem?_eq_none (by simpa using Nat.le_of_not_lt hk), if_neg hk]
    rfl

/-- The starting index of `colSpec` only matters modulo the column
count. -/
theorem colSpec_congr_mod {α : Type} (C k : Nat) (ps : List α) :
    ∀ i j, i % C = j % C → colSpec C k i ps = colSpec C k j ps := by
  induction ps with
  | nil => intros; rfl
  | cons p rest ih =>
    intro i j h
    rw [colSpec, colSpec, h,
      ih (i + 1) (j + 1) (by rw [Nat.add_mod i, Nat.add_mod j, h])]

/-- Index formula for a column: element `j` of column `k`, when the
assignment starts at running index `i < C`, is the input element at
the distance to the next index congruent to `k` plus `j` full
rounds. -/
theorem colSpec_getElem? {α : Type} (C k : Nat) (hC : 0 < C) (hk : k < C) :
    ∀ (ps : List α) (i j : Nat), i < C →
      (colSpec C k i ps)[j]? =
        ps[(if i ≤ k then k - i else k + C - i) + j * C]? := by
  intro ps
  induction ps with
  | nil => intro i j hi; rw [colSpec]; simp
  | cons p rest ih =>
    intro i j hi
    rw [colSpec, Nat.mod_eq_of_lt hi]
    by_cases hik : i = k
    · rw [if_pos (hik ▸ rfl), if_pos (hik ▸ Nat.le_refl i)]
      subst hik
      cases j with
      | zero => simp
      | succ j =>
        rw [List.singleton_append, List.getElem?_cons_succ]
        by_cases h1 : i + 1 < C
        · rw [ih (i + 1) j h1, if_neg (by omega),
            show i - i + (j + 1) * C = ((i + C - (i + 1)) + j * C) + 1 from by
              rw [Nat.succ_mul]; omega,
            List.getElem?_cons_succ]
        · have h2 : i + 1 = C := by omega
          rw [colSpec_congr_mod C i rest (i + 1) 0
            (by rw [h2, Nat.mod_self, Nat.zero_mod])]
          rw [ih 0 j hC, if_pos (Nat.zero_le i), Nat.sub_zero,
            show i - i + (j + 1) * C = (i + j * C) + 1 from by
              rw [Nat.succ_mul]; omega,
            List.getElem?_cons_succ]
    · rw [if_neg hik, List.nil_append]
      by_cases h1 : i + 1 < C
      · rw [ih (i + 1) j h1]
        by_cases hik2 : i ≤ k
        · rw [if_pos (by omega), if_pos hik2,
            show k - i + j * C = (k - (i + 1) + j * C) + 1 from by omega,
            List.getElem?_cons_succ]
        · rw [if_neg (by omega), if_neg hik2,
            show k + C - i + j * C = (k + C - (i + 1) + j * C) + 1 from by
              omega,
            List.getElem?_cons_succ]
      · have h2 : i + 1 = C := by omega
        have hki : k < i := by omega
        rw [colSpec_congr_mod C k rest (i + 1) 0
          (by rw [h2, Nat.mod_self, Nat.zero_mod])]
        rw [ih 0 j hC, if_pos (Nat.zero_le k), Nat.sub_zero,
          if_neg (by omega),
          show k + C - i + j * C = (k + j * C) + 1 from by omega,
          List.getElem?_cons_succ]

/-- Element `j` of column `k` is input element `k + j * C`. -/
theorem colSpec_zero_getElem? {α : Type} (C k : Nat) (hC : 0 < C)
    (hk : k < C) (ps : List α) (j : Nat) :
    (colSpec C k 0 ps)[j]? = ps[k + j * C]? := by
  rw [colSpec_getElem? C k hC hk ps 0 j hC, if_pos (Nat.zero_le k),
    Nat.sub_zero]

/-- The head of column `k` is input element `k`. -/
theorem colSpec_head? {α : Type} (C k : Nat) (hC : 0 < C) (hk : k < C)
    (ps : List α) : (colSpec C k 0 ps).head? = ps[k]? := by
  rw [List.head?_eq_getElem?, colSpec_zero_getElem? C k hC hk ps 0]
  simp

/-- Dropping the head of a column is distributing the input with its
first round removed. -/
theorem colSpec_tail {α : Type} (C k : Nat) (hC : 0 < C) (hk : k < C)
    (ps : List α) : (colSpec C k 0 ps).tail = colSpec C k 0 (ps.drop C) := by
  apply List.ext_getElem?
  intro j
  rw [List.getElem?_tail, colSpec_zero_getElem? C k hC hk ps (j + 1),
    colSpec_zero_getElem? C k hC hk (ps.drop C) j, List.getElem?_drop]
  congr 1
  rw [Nat.succ_mul]
  omega

/-- Every column is a sublist of the input, so the input order is
preserved inside each column. -/
theorem colSpec_sublist {α : Type} (C k : Nat) :
    ∀ (i : Nat) (ps : List α), (colSpec C k i ps).Sublist ps := by
  intro i ps
  induction ps generalizing i with
  | nil => rw [colSpec]
  | cons p rest ih =>
    rw [colSpec]
    by_cases h : i % C = k
    · rw [if_pos h, List.singleton_append]
      exact (ih (i + 1)).cons₂ p
    · rw [if_neg h, List.nil_append]
      exact (ih (i + 1)).cons p

/-- Collecting the optional elements of a list over an initial range
of indices takes its prefix. -/
theorem range_filterMap_getElem? {α : Type} (n : Nat) (l : List α) :
    (List.range n).filterMap (fun k => l[k]?) = l.take n := by
  induction n with
  | zero => simp
  | succ n ih =>
    rw [List.range_succ, List.filterMap_append, ih, List.take_succ]
    cases h : l[n]? <;> simp [h]

/-- The heads of the distributed columns are the first `C` pins. -/
theorem distribute_heads {α : Type} (C : Nat) (hC : 0 < C) (ps : List α) :
    (distributeColumns C ps).filterMap List.head? = ps.take C := by
  rw [distributeColumns_eq, List.filterMap_map,
    ← range_filterMap_getElem? C ps]
  apply List.filterMap_congr
  intro k hk
  show (colSpec C k 0 ps).head? = ps[k]?
  exact colSpec_head? C k hC (List.mem_range.mp hk) ps

/-- The tails of the distributed columns distribute the input without
its first round. -/
theorem distribute_tails {α : Type} (C : Nat) (hC : 0 < C) (ps : List α) :
    (distributeColumns C ps).map List.tail = distributeColumns C (ps.drop C) := by
  rw [distributeColumns_eq, distributeColumns_eq C (ps.drop C),
    List.map_map]
  apply List.map_congr_left
  intro k hk
  show (colSpec C k 0 ps).tail = colSpec C k 0 (ps.drop C)
  exact colSpec_tail C k hC (List.mem_range.mp hk) ps

/-- The distributed columns are all empty exactly when the input is. -/
theorem distribute_all_empty {α : Type} (C : Nat) (hC : 0 < C)
    (ps : List α) :
    ((distributeColumns C ps).all List.isEmpty = true) ↔ ps = [] := by
  rw [distributeColumns_eq, List.all_eq_true]
  constructor
  · intro h
    cases ps with
    | nil => rfl
    | cons p rest =>
      have h0 := h (colSpec C 0 0 (p :: rest))
        (List.mem_map.mpr ⟨0, List.mem_range.mpr hC, rfl⟩)
      rw [colSpec, if_pos (Nat.zero_mod C)] at h0
      simp at h0
  · rintro rfl col hcol
    rw [List.mem_map] at hcol
    obtain ⟨k, _, rfl⟩ := hcol
    rw [colSpec]
    rfl

/-- Bridge between a list-level sum over `List.range` and the
corresponding finite sum. -/
theorem sum_map_list_range (f : Nat → Nat) (n : Nat) :
    ((List.range n).map f).sum = ∑ k in Finset.range n, f k := by
  induction n with
  | zero => simp
  | succ n ih =>
    rw [List.range_succ, List.map_append, List.sum_append, ih,
      Finset.sum_range_succ]
    simp

/-- The column lengths of the assignment starting at any index add up
to the input length. -/
theorem colSpec_length_sum {α : Type} (C : Nat) (hC : 0 < C) (ps : List α) :
    ∀ i, (∑ k in Finset.range C, (colSpec C k i ps).length) = ps.length := by
  induction ps with
  | nil => intro i; simp [colSpec]
  | cons p rest ih =>
    intro i
    have hsplit : ∀ k, (colSpec C k i (p :: rest) : List α).length
        = (if i % C = k then 1 else 0) + (colSpec C k (i + 1) rest).length := by
      intro k
      rw [colSpec, List.length_append]
      split_ifs <;> simp
    simp only [hsplit]
    rw [Finset.sum_add_distrib, ih (i + 1), Finset.sum_ite_eq,
      if_pos (Finset.mem_range.mpr (Nat.mod_lt i hC))]
    simp [Nat.add_comm]

/-- The per-column occurrence counts of any element add up to its count
in the input. -/
theorem colSpec_count_sum {α : Type} [DecidableEq α] (C : Nat) (hC : 0 < C)
    (a : α) (ps : List α) :
    ∀ i, (∑ k in Finset.range C, (colSpec C k i ps).count a) = ps.count a := by
  induction ps with
  | nil => intro i; simp [colSpec]
  | cons p rest ih =>
    intro i
    have hsplit : ∀ k, (colSpec C k i (p :: rest) : List α).count a
        = (if i % C = k then [p].count a else 0)
          + (colSpec C k (i + 1) rest).count a := by
      intro k
      rw [colSpec, List.count_append]
      split_ifs <;> simp
    simp only [hsplit]
    rw [Finset.sum_add_distrib, ih (i + 1), Finset.sum_ite_eq,
      if_pos (Finset.mem_range.mpr (Nat.mod_lt i hC))]
    by_cases hpa : p = a
    · subst hpa
      simp [List.count_cons]
      omega
    · simp [List.count_cons, hpa, Ne.symm hpa]

/-- The total number of pins over the distributed columns is the input
length. -/
theorem distribute_length_sum {α : Type} (C : Nat) (hC : 0 < C)
    (ps : List α) :
    ((distributeColumns C ps).map List.length).sum = ps.length := by
  rw [distributeColumns_eq, List.map_map, sum_map_list_range]
  exact colSpec_length_sum C hC ps 0

/-- The total number of occurrences of any element over the distributed
columns is its count in the input. -/
theorem distribute_count_sum {α : Type} [DecidableEq α] (C : Nat)
    (hC : 0 < C) (ps : List α) (a : α) :
    ((distributeColumns C ps).map (fun col => col.count a)).sum
      = ps.count a := by
  rw [distributeColumns_eq, List.map_map, sum_map_list_range]
  exact colSpec_count_sum C hC a ps 0

/-- With enough fuel, round-robin interleaving of the distributed
columns rebuilds the input list. -/
theorem roundRobinAux_distribute {α : Type} (C : Nat) (hC : 0 < C) :
    ∀ (fuel : Nat) (ps : List α), ps.length ≤ fuel →
      roundRobinAux fuel (distributeColumns C ps) = ps := by
  intro fuel
  induction fuel with
  | zero =>
    intro ps hps
    have : ps = [] := List.eq_nil_of_length_eq_zero (Nat.le_zero.mp hps)
    subst this
    rfl
  | succ fuel ih =>
    intro ps hps
    rw [roundRobinAux]
    by_cases hnil : ps = []
    · subst hnil
      rw [if_pos ((distribute_all_empty C hC []).mpr rfl)]
    · rw [if_neg (fun hall => hnil ((distribute_all_empty C hC ps).mp hall)),
        distribute_heads C hC ps, distribute_tails C hC ps,
        ih (ps.drop C) (by
          rw [List.length_drop]
          have h1 : 0 < ps.length := List.length_pos.mpr hnil
          omega)]
      exact List.take_append_drop C ps

/-- Round-robin interleaving of the distributed columns rebuilds the
input list. -/
theorem roundRobin_distribute {α : Type} (C : Nat) (hC : 0 < C)
    (ps : List α) :
    roundRobin (distributeColumns C ps) = ps := by
  rw [roundRobin, distribute_length_sum C hC ps]
  exact roundRobinAux_distribute C hC ps.length ps le_rfl

/-- The column at an in-range index of the distribution is the sublist
of pins at the congruent input positions. -/
theorem distribute_getD {α : Type} (C : Nat) (ps : List α) (k : Nat)
    (hk : k < C) :
    (distributeColumns C ps).getD k [] = colSpec C k 0 ps := by
  rw [List.getD_eq_getElem?_getD, distributeColumns_eq, List.getElem?_map,
    List.getElem?_range hk]
  rfl

end MasonryGrid

/-- C2: for any viewport width, with `C` the column count the layout
engine produces, the pin at input position `i` lands in column
`i % C` (at slot `i / C` within that column), and every column is a
sublist of the input, so the relative input order is preserved inside
each column. -/
theorem masonry_mod_assignment (w : Nat) (ps : List Pin) (i k : Nat)
    (hi : i < ps.length) (hk : k < MasonryGrid.updateColumns w) :
    ((MasonryGrid.distributeColumns (MasonryGrid.updateColumns w) ps).getD
        (i % MasonryGrid.updateColumns w) [])[i / MasonryGrid.updateColumns w]?
      = some (ps.get ⟨i, hi⟩) ∧
    ((MasonryGrid.distributeColumns (MasonryGrid.updateColumns w) ps).getD
        k []).Sublist ps := by
  have hC : 0 < MasonryGrid.updateColumns w := by
    unfold MasonryGrid.updateColumns
    split_ifs <;> omega
  constructor
  · rw [MasonryGrid.distribute_getD _ ps _ (Nat.mod_lt i hC),
      MasonryGrid.colSpec_zero_getElem? _ _ hC (Nat.mod_lt i hC) ps _,
      show i % MasonryGrid.updateColumns w
          + i / MasonryGrid.updateColumns w * MasonryGrid.updateColumns w = i
        from by rw [Nat.mul_comm]; exact Nat.mod_add_div i _,
      List.getElem?_eq_getElem hi]
    rfl
  · rw [MasonryGrid.distribute_getD _ ps _ hk]
    exact MasonryGrid.colSpec_sublist _ k 0 ps

/-- Witness for C2: with three pins and two columns, pin 2 sits at slot
1 of column 0. -/
theorem masonry_mod_assignment_witness :
    ((MasonryGrid.distributeColumns (MasonryGrid.updateColumns 0)
        [samplePin, samplePin2, samplePin3]).getD
        (2 % MasonryGrid.updateColumns 0) [])[2 / MasonryGrid.updateColumns 0]?
      = some samplePin3 :=
  ((masonry_mod_assignment 0 [samplePin, samplePin2, samplePin3] 2 0
      (by decide) (by decide)).1).trans rfl

/-- C10: for every positive column count the distribution is a
partition of its input: the column lengths add up to the input length,
every pin occurs across the columns exactly as often as in the input,
and round-robin interleaving of the columns rebuilds the input list. -/
theorem masonry_partition (C : Nat) (hC : 0 < C) (ps : List Pin) :
    ((MasonryGrid.distributeColumns C ps).map List.length).sum = ps.length ∧
    (∀ p : Pin, ((MasonryGrid.distributeColumns C ps).map
        (fun col => col.count p)).sum = ps.count p) ∧
    MasonryGrid.roundRobin (MasonryGrid.distributeColumns C ps) = ps :=
  ⟨MasonryGrid.distribute_length_sum C hC ps,
   fun p => MasonryGrid.distribute_count_sum C hC ps p,
   MasonryGrid.roundRobin_distribute C hC ps⟩

/-- Witness for C10: interleaving the two columns of a three-pin
distribution rebuilds the input. -/
theorem masonry_partition_witness :
    MasonryGrid.roundRobin (MasonryGrid.distributeColumns 2
        [samplePin, samplePin2, samplePin3])
      = [samplePin, samplePin2, samplePin3] :=
  (masonry_partition 2 (by decide) [samplePin, samplePin2, samplePin3]).2.2
